import Mathlib

/-!
Verification development for the `wren-rust` safety layer (`src/vm.rs`).

The repository is a Rust wrapper around the Wren scripting engine's C API.
The engine itself (`ffi::wren*`) is an external collaborator that the spec
treats as opaque; we model its slot register file as an explicit state and
each FFI entry point as a state transition, and we embed the wrapper's own
logic (type checks, `ensure_slots` auto-grow, `check_index` bounds logic,
`Rc` handle reference counting, `Drop` ownership flags) faithfully from
`src/vm.rs`.  Machine integers (`i32` slot indices) are modelled as
unbounded `Int`: the spec's claims live at the abstraction level where
engine allocation succeeds and index arithmetic does not overflow.
`f64` payloads are opaque to the wrapper (it passes them through untouched),
so they are modelled as their 64-bit pattern, a `Nat`.  Rust byte strings
(`&str`, `&[u8]`, `CString`) are modelled as `List Nat` of byte values.
-/

namespace Wren

/-- Modelled from the spec: the engine's slot type tag (the crate root's
`Type` enum, re-exporting the engine's value kinds: booleans, numbers,
foreign objects, lists, null, strings, and unknown/other). The enum's
declaration lives in the crate root, outside `src/vm.rs`. -/
inductive Ty where
  | tBool
  | tNum
  | tForeign
  | tList
  | tNull
  | tString
  | tUnknown
deriving DecidableEq

/-- Modelled from the spec: the three-way script outcome `{Success,
CompileError, RuntimeError}` returned by interpret/call (declared in the
crate root, outside `src/vm.rs`). -/
inductive InterpretResult where
  | Success
  | CompileError
  | RuntimeError
deriving DecidableEq

/-- A value held in one engine slot.  Doubles are opaque 64-bit patterns,
strings are byte lists, foreign payloads are opaque pointers, and
`wOpaque` stands for engine values this layer never inspects (classes,
handle targets, looked-up variables). -/
inductive WrenValue where
  | wBool (b : Bool)
  | wNum (bits : Nat)
  | wStr (bytes : List Nat)
  | wList (elems : List WrenValue)
  | wNull
  | wForeign (p : Nat)
  | wOpaque

/-- The type tag the engine reports for a slot value (`wrenGetSlotType`). -/
def typeOf : WrenValue → Ty
  | WrenValue.wBool _ => Ty.tBool
  | WrenValue.wNum _ => Ty.tNum
  | WrenValue.wStr _ => Ty.tString
  | WrenValue.wList _ => Ty.tList
  | WrenValue.wNull => Ty.tNull
  | WrenValue.wForeign _ => Ty.tForeign
  | WrenValue.wOpaque => Ty.tUnknown

/-- The engine instance's observable state: its slot array. -/
structure EngineState where
  slots : List WrenValue

/-- One call made into the engine's C API.  Traces of these let us state
"no engine call happens" and "exactly one release call happens". -/
inductive EngineCall where
  | ensureSlots (n : Int)
  | setSlotBool (slot : Int) (b : Bool)
  | setSlotBytes (slot : Int) (bytes : List Nat)
  | setSlotDouble (slot : Int) (bits : Nat)
  | setSlotNewForeign (slot class_slot : Int) (size : Nat)
  | setSlotNewList (slot : Int)
  | setSlotNull (slot : Int)
  | setSlotString (slot : Int) (bytes : List Nat)
  | setSlotHandle (slot : Int) (raw : Nat)
  | getListElement (list_slot index element_slot : Int)
  | insertInList (list_slot index element_slot : Int)
  | getVariable (module name : List Nat) (slot : Int)
  | interpretSource (source : List Nat)
  | interpretInModule (module source : List Nat)
  | makeCallHandle (signature : List Nat)
  | releaseHandle (vm raw : Nat)
  | freeVM (vm : Nat)
deriving DecidableEq

/-- How a wrapper operation can fail: a Rust panic raised by this layer
(an `assert!` or an `unwrap()`), or behavior the engine leaves undefined
(an out-of-range index forwarded to the C API). -/
inductive Err where
  | assertFail (msg : String)
  | engineUB
deriving DecidableEq

/-- Host I/O failure for `interpret_file` (`std::io::Error`): the file
cannot be opened, or its bytes are not valid UTF-8. -/
inductive IoError where
  | notFound
  | invalidData
deriving DecidableEq

/-- Whether a byte string contains an interior NUL byte; `CString::new`
fails (and the wrapper's `.unwrap()` panics) exactly in this case. -/
def hasNul (bytes : List Nat) : Bool := bytes.contains 0

/-- A UTF-8 continuation byte (0x80–0xBF). -/
def contb (b : Nat) : Bool := decide (0x80 ≤ b ∧ b ≤ 0xBF)

/-- UTF-8 validity of a byte list, as checked by Rust's
`str::from_utf8` (RFC 3629: no overlong forms, no surrogates,
code points at most U+10FFFF). -/
def isValidUtf8 : List Nat → Bool
  | [] => true
  | b :: bs =>
    if b ≤ 0x7F then isValidUtf8 bs
    else if 0xC2 ≤ b ∧ b ≤ 0xDF then
      match bs with
      | c1 :: bs1 => contb c1 && isValidUtf8 bs1
      | [] => false
    else if b = 0xE0 then
      match bs with
      | c1 :: c2 :: bs2 => decide (0xA0 ≤ c1 ∧ c1 ≤ 0xBF) && contb c2 && isValidUtf8 bs2
      | _ => false
    else if (0xE1 ≤ b ∧ b ≤ 0xEC) ∨ b = 0xEE ∨ b = 0xEF then
      match bs with
      | c1 :: c2 :: bs2 => contb c1 && contb c2 && isValidUtf8 bs2
      | _ => false
    else if b = 0xED then
      match bs with
      | c1 :: c2 :: bs2 => decide (0x80 ≤ c1 ∧ c1 ≤ 0x9F) && contb c2 && isValidUtf8 bs2
      | _ => false
    else if b = 0xF0 then
      match bs with
      | c1 :: c2 :: c3 :: bs3 =>
        decide (0x90 ≤ c1 ∧ c1 ≤ 0xBF) && contb c2 && contb c3 && isValidUtf8 bs3
      | _ => false
    else if 0xF1 ≤ b ∧ b ≤ 0xF3 then
      match bs with
      | c1 :: c2 :: c3 :: bs3 => contb c1 && contb c2 && contb c3 && isValidUtf8 bs3
      | _ => false
    else if b = 0xF4 then
      match bs with
      | c1 :: c2 :: c3 :: bs3 =>
        decide (0x80 ≤ c1 ∧ c1 ≤ 0x8F) && contb c2 && contb c3 && isValidUtf8 bs3
      | _ => false
    else false

/-- Reading a C string pointer (`CStr::from_ptr`) takes bytes up to the
first NUL terminator. -/
def cstrTruncate (bytes : List Nat) : List Nat := bytes.takeWhile (fun b => b ≠ 0)

/-- Engine primitive: read slot `i` of the register file. Reading a slot
the engine never allocated is undefined behavior, modelled as `none`. -/
def slotRead (e : EngineState) (i : Int) : Option WrenValue :=
  if 0 ≤ i then e.slots[i.toNat]? else none

/-- Engine primitive: overwrite slot `i`. Writing outside the allocated
slot array is undefined behavior, modelled as `none`. -/
def slotWrite (e : EngineState) (i : Int) (v : WrenValue) : Option EngineState :=
  if 0 ≤ i ∧ i.toNat < e.slots.length then some ⟨e.slots.set i.toNat v⟩ else none

/-- Engine primitive `wrenEnsureSlots`: grow the slot array to at least
`n` slots (new slots hold null); never shrink. -/
def wrenEnsureSlots (e : EngineState) (n : Int) : EngineState :=
  if e.slots.length < n.toNat then
    ⟨e.slots ++ List.replicate (n.toNat - e.slots.length) WrenValue.wNull⟩
  else e

theorem wrenEnsureSlots_length (e : EngineState) (n : Int) :
    (wrenEnsureSlots e n).slots.length = max e.slots.length n.toNat := by
  unfold wrenEnsureSlots
  split <;> simp <;> omega

theorem wrenEnsureSlots_get?_of_lt (e : EngineState) (n : Int) (i : Nat)
    (h : i < e.slots.length) :
    (wrenEnsureSlots e n).slots[i]? = e.slots[i]? := by
  unfold wrenEnsureSlots
  split
  · exact List.getElem?_append_left h
  · rfl

theorem slotRead_some (e : EngineState) (i : Int) (w : WrenValue)
    (h : slotRead e i = some w) :
    0 ≤ i ∧ i.toNat < e.slots.length ∧ e.slots[i.toNat]? = some w := by
  unfold slotRead at h
  split at h
  · refine ⟨by assumption, ?_, h⟩
    exact (List.getElem?_eq_some.mp h).1
  · exact absurd h (by simp)

theorem slotRead_wrenEnsureSlots (e : EngineState) (n : Int) (i : Int) (w : WrenValue)
    (h : slotRead e i = some w) : slotRead (wrenEnsureSlots e n) i = some w := by
  obtain ⟨h0, hlt, hget⟩ := slotRead_some e i w h
  unfold slotRead
  rw [if_pos h0, wrenEnsureSlots_get?_of_lt e n i.toNat hlt]
  exact hget

/-- The wrapper's `VM` struct: the engine instance pointer (`raw`,
modelled as the pointer value plus the pointed-to engine state) and the
`owned` teardown flag. -/
structure VMState where
  raw : Nat
  owned : Bool
  engine : EngineState

/-- The `RawHandle` struct: the engine handle pointer and the instance
pointer of the VM that issued it, captured at creation. -/
structure RawHandle where
  raw : Nat
  vm : Nat
deriving DecidableEq

/-- Rust `VM::new(cfg)`: asks the engine for a fresh instance (pointer value
and initial state are the engine's, so they are parameters here) and
wraps it with `owned = true`. -/
def vmNew (p : Nat) (e : EngineState) : VMState :=
  { raw := p, owned := true, engine := e }

/-- Rust `VM::from_ptr(ptr)`: wraps an existing instance pointer with
`owned = false`. -/
def vmFromPtr (p : Nat) (e : EngineState) : VMState :=
  { raw := p, owned := false, engine := e }

/-- Rust `impl Drop for VM`: the engine calls made when a `VM` value is
dropped — `wrenFreeVM` if owned, nothing otherwise. -/
def vmDropCalls (v : VMState) : List EngineCall :=
  if v.owned then [EngineCall.freeVM v.raw] else []

/-- Rust `impl Drop for RawHandle`: the engine call made when the inner
reference-counted cell is destroyed — `wrenReleaseHandle(self.vm, self.raw)`. -/
def rawHandleDrop (h : RawHandle) : List EngineCall :=
  [EngineCall.releaseHandle h.vm h.raw]

/-- Modelled from the spec: `Rc::clone` semantics (std library, outside
this repository) — cloning a `Handle` increments the cell's strong count;
no engine call. -/
def rcClone (strong : Nat) : Nat := strong + 1

/-- Cloning a handle `n` times starting from strong count `strong`. -/
def rcCloneN : Nat → Nat → Nat
  | strong, 0 => strong
  | strong, n + 1 => rcCloneN (rcClone strong) n

/-- Modelled from the spec: dropping one `Rc` reference (std library,
outside this repository) — decrement the strong count; when the last
reference is dropped, run `RawHandle`'s drop, which releases the engine
handle. -/
def rcDropOne (strong : Nat) (h : RawHandle) : Nat × List EngineCall :=
  if strong ≤ 1 then (0, rawHandleDrop h) else (strong - 1, [])

/-- Dropping `n` of the references to one handle cell, collecting engine
calls in order.  All references to one cell are interchangeable, so a
drop order is exactly a count of drops. -/
def rcDropN : Nat → Nat → RawHandle → Nat × List EngineCall
  | strong, 0, _ => (strong, [])
  | strong, n + 1, h =>
    let s1 := rcDropOne strong h
    let s2 := rcDropN s1.1 n h
    (s2.1, s1.2 ++ s2.2)

/-- Dropping every reference to a handle cell whose strong count is
`strong`. -/
def rcDropAll (strong : Nat) (h : RawHandle) : Nat × List EngineCall :=
  rcDropN strong strong h

/-- Rust `VM::get_slot_count` (`wrenGetSlotCount`). -/
def get_slot_count (v : VMState) : Int := v.engine.slots.length

/-- Rust `VM::ensure_slots` (`wrenEnsureSlots`), called automatically by every
slot write; returns the new state and the engine call it made. -/
def ensure_slots (v : VMState) (num_slots : Int) : VMState × List EngineCall :=
  ({ v with engine := wrenEnsureSlots v.engine num_slots },
   [EngineCall.ensureSlots num_slots])

/-- Rust `VM::get_slot_type`: asserts `get_slot_count() > slot`, then calls
`wrenGetSlotType`. -/
def get_slot_type (v : VMState) (slot : Int) : Except Err Ty :=
  if get_slot_count v > slot then
    match slotRead v.engine slot with
    | some value => Except.ok (typeOf value)
    | none => Except.error Err.engineUB
  else
    Except.error (Err.assertFail s!"Slot {slot} is out of bounds")

/-- Rust `VM::get_slot_bool`: returns `None` unless the slot's type tag is
`Bool`, else reads via `wrenGetSlotBool` (the `!= false` mirrors the
source's coercion). -/
def get_slot_bool (v : VMState) (slot : Int) : Except Err (Option Bool) :=
  match get_slot_type v slot with
  | Except.error e => Except.error e
  | Except.ok t =>
    if t = Ty.tBool then
      match slotRead v.engine slot with
      | some (WrenValue.wBool b) => Except.ok (some (b != false))
      | _ => Except.error Err.engineUB
    else Except.ok none

/-- Rust `VM::get_slot_bytes`: returns `None` unless the slot holds a string,
else the byte view `wrenGetSlotBytes` reports (pointer plus length — the
full stored byte content, interior NULs included). -/
def get_slot_bytes (v : VMState) (slot : Int) : Except Err (Option (List Nat)) :=
  match get_slot_type v slot with
  | Except.error e => Except.error e
  | Except.ok t =>
    if t = Ty.tString then
      match slotRead v.engine slot with
      | some (WrenValue.wStr bytes) => Except.ok (some bytes)
      | _ => Except.error Err.engineUB
    else Except.ok none

/-- Rust `VM::get_slot_double`: returns `None` unless the slot holds a number,
else the stored 64-bit pattern via `wrenGetSlotDouble`. -/
def get_slot_double (v : VMState) (slot : Int) : Except Err (Option Nat) :=
  match get_slot_type v slot with
  | Except.error e => Except.error e
  | Except.ok t =>
    if t = Ty.tNum then
      match slotRead v.engine slot with
      | some (WrenValue.wNum bits) => Except.ok (some bits)
      | _ => Except.error Err.engineUB
    else Except.ok none

/-- Rust `VM::get_slot_foreign`: returns `None` unless the slot holds a
foreign object, else its payload pointer via `wrenGetSlotForeign`. -/
def get_slot_foreign (v : VMState) (slot : Int) : Except Err (Option Nat) :=
  match get_slot_type v slot with
  | Except.error e => Except.error e
  | Except.ok t =>
    if t = Ty.tForeign then
      match slotRead v.engine slot with
      | some (WrenValue.wForeign p) => Except.ok (some p)
      | _ => Except.error Err.engineUB
    else Except.ok none

/-- Rust `VM::get_slot_string`: returns `None` unless the slot holds a string;
else reads the C string pointer from `wrenGetSlotString`
(`CStr::from_ptr` stops at the first NUL) and `.to_str().unwrap()` panics
unless the bytes are valid UTF-8. -/
def get_slot_string (v : VMState) (slot : Int) : Except Err (Option (List Nat)) :=
  match get_slot_type v slot with
  | Except.error e => Except.error e
  | Except.ok t =>
    if t = Ty.tString then
      match slotRead v.engine slot with
      | some (WrenValue.wStr bytes) =>
        let cs := cstrTruncate bytes
        if isValidUtf8 cs then Except.ok (some cs)
        else Except.error (Err.assertFail "invalid utf-8 sequence")
      | _ => Except.error Err.engineUB
    else Except.ok none

/-- Rust `VM::get_slot_handle`: asserts `get_slot_count() > slot`, then wraps
the engine handle `wrenGetSlotHandle` returns (its pointer value is the
engine's, hence a parameter) together with `vm = self.raw`. -/
def get_slot_handle (v : VMState) (slot : Int) (hraw : Nat) : Except Err RawHandle :=
  if get_slot_count v > slot then
    Except.ok { raw := hraw, vm := v.raw }
  else
    Except.error (Err.assertFail s!"Slot {slot} is out of bounds")

/-- Rust `VM::set_slot_bool`: `ensure_slots(slot + 1)` then `wrenSetSlotBool`. -/
def set_slot_bool (v : VMState) (slot : Int) (value : Bool) :
    List EngineCall × Except Err VMState :=
  let (v1, c1) := ensure_slots v (slot + 1)
  match slotWrite v1.engine slot (WrenValue.wBool value) with
  | some e2 => (c1 ++ [EngineCall.setSlotBool slot value], Except.ok { v1 with engine := e2 })
  | none => (c1 ++ [EngineCall.setSlotBool slot value], Except.error Err.engineUB)

/-- Rust `VM::set_slot_bytes`: `ensure_slots(slot + 1)` then `wrenSetSlotBytes`
with the byte slice's pointer and length. -/
def set_slot_bytes (v : VMState) (slot : Int) (bytes : List Nat) :
    List EngineCall × Except Err VMState :=
  let (v1, c1) := ensure_slots v (slot + 1)
  match slotWrite v1.engine slot (WrenValue.wStr bytes) with
  | some e2 => (c1 ++ [EngineCall.setSlotBytes slot bytes], Except.ok { v1 with engine := e2 })
  | none => (c1 ++ [EngineCall.setSlotBytes slot bytes], Except.error Err.engineUB)

/-- Rust `VM::set_slot_double`: `ensure_slots(slot + 1)` then
`wrenSetSlotDouble`. -/
def set_slot_double (v : VMState) (slot : Int) (bits : Nat) :
    List EngineCall × Except Err VMState :=
  let (v1, c1) := ensure_slots v (slot + 1)
  match slotWrite v1.engine slot (WrenValue.wNum bits) with
  | some e2 => (c1 ++ [EngineCall.setSlotDouble slot bits], Except.ok { v1 with engine := e2 })
  | none => (c1 ++ [EngineCall.setSlotDouble slot bits], Except.error Err.engineUB)

/-- Rust `VM::set_slot_new_foreign`: `ensure_slots(slot + 1)` then
`wrenSetSlotNewForeign`, which allocates a foreign payload (its pointer
is the engine's choice, hence a parameter) and stores it in `slot`; the
class value read from `class_slot` is engine-internal and not modelled. -/
def set_slot_new_foreign (v : VMState) (slot class_slot : Int) (size : Nat) (p : Nat) :
    List EngineCall × Except Err (Nat × VMState) :=
  let (v1, c1) := ensure_slots v (slot + 1)
  match slotWrite v1.engine slot (WrenValue.wForeign p) with
  | some e2 =>
    (c1 ++ [EngineCall.setSlotNewForeign slot class_slot size],
     Except.ok (p, { v1 with engine := e2 }))
  | none =>
    (c1 ++ [EngineCall.setSlotNewForeign slot class_slot size], Except.error Err.engineUB)

/-- Rust `VM::set_slot_new_list`: `ensure_slots(slot + 1)` then
`wrenSetSlotNewList`, storing a fresh empty list. -/
def set_slot_new_list (v : VMState) (slot : Int) :
    List EngineCall × Except Err VMState :=
  let (v1, c1) := ensure_slots v (slot + 1)
  match slotWrite v1.engine slot (WrenValue.wList []) with
  | some e2 => (c1 ++ [EngineCall.setSlotNewList slot], Except.ok { v1 with engine := e2 })
  | none => (c1 ++ [EngineCall.setSlotNewList slot], Except.error Err.engineUB)

/-- Rust `VM::set_slot_null`: `ensure_slots(slot + 1)` then `wrenSetSlotNull`. -/
def set_slot_null (v : VMState) (slot : Int) :
    List EngineCall × Except Err VMState :=
  let (v1, c1) := ensure_slots v (slot + 1)
  match slotWrite v1.engine slot WrenValue.wNull with
  | some e2 => (c1 ++ [EngineCall.setSlotNull slot], Except.ok { v1 with engine := e2 })
  | none => (c1 ++ [EngineCall.setSlotNull slot], Except.error Err.engineUB)

/-- Rust `VM::set_slot_string`: `ensure_slots(slot + 1)` first, then
`CString::new(s).unwrap()` (panics on an interior NUL byte), then
`wrenSetSlotString`. -/
def set_slot_string (v : VMState) (slot : Int) (s : List Nat) :
    List EngineCall × Except Err VMState :=
  let (v1, c1) := ensure_slots v (slot + 1)
  if hasNul s then
    (c1, Except.error (Err.assertFail "nul byte found in provided data"))
  else
    match slotWrite v1.engine slot (WrenValue.wStr s) with
    | some e2 => (c1 ++ [EngineCall.setSlotString slot s], Except.ok { v1 with engine := e2 })
    | none => (c1 ++ [EngineCall.setSlotString slot s], Except.error Err.engineUB)

/-- Rust `VM::set_slot_handle`: `ensure_slots(slot + 1)` then
`wrenSetSlotHandle`, storing the handle's target (a script value this
layer never inspects). -/
def set_slot_handle (v : VMState) (slot : Int) (handle : RawHandle) :
    List EngineCall × Except Err VMState :=
  let (v1, c1) := ensure_slots v (slot + 1)
  match slotWrite v1.engine slot WrenValue.wOpaque with
  | some e2 =>
    (c1 ++ [EngineCall.setSlotHandle slot handle.raw], Except.ok { v1 with engine := e2 })
  | none =>
    (c1 ++ [EngineCall.setSlotHandle slot handle.raw], Except.error Err.engineUB)

/-- Rust `VM::get_list_count`: if the slot's type tag is `List`, the length
`wrenGetListCount` reports, else 0. -/
def get_list_count (v : VMState) (slot : Int) : Except Err Int :=
  match get_slot_type v slot with
  | Except.error e => Except.error e
  | Except.ok t =>
    if t = Ty.tList then
      match slotRead v.engine slot with
      | some (WrenValue.wList elems) => Except.ok (elems.length : Int)
      | _ => Except.error Err.engineUB
    else Except.ok 0

/-- Rust `VM::check_index`: asserts the slot holds a list, converts a negative
(relative) index via `list_count + 1 + index`, and asserts the absolute
index satisfies `index <= list_count`. -/
def check_index (v : VMState) (list_slot index : Int) : Except Err Int :=
  match get_slot_type v list_slot with
  | Except.error e => Except.error e
  | Except.ok t =>
    if t = Ty.tList then
      match get_list_count v list_slot with
      | Except.error e => Except.error e
      | Except.ok list_count =>
        let index := if index < 0 then list_count + 1 + index else index
        if index ≤ list_count then Except.ok index
        else Except.error (Err.assertFail "List index out of bounds")
    else Except.error (Err.assertFail s!"Slot {list_slot} must contain a list")

/-- Engine primitive `wrenGetListElement`: copy element `index` of the
list in `list_slot` into `element_slot`; an index outside the list's
elements, or a target the engine never allocated, is undefined behavior. -/
def wrenGetListElement (e : EngineState) (list_slot index element_slot : Int) :
    Option EngineState :=
  match slotRead e list_slot with
  | some (WrenValue.wList elems) =>
    if h0 : 0 ≤ index ∧ index.toNat < elems.length then
      slotWrite e element_slot (elems.get ⟨index.toNat, h0.2⟩)
    else none
  | _ => none

/-- Engine primitive `wrenInsertInList`: insert the value in
`element_slot` into the list in `list_slot` at position `index`; an
insert position past the element count, or an unallocated source slot,
is undefined behavior. -/
def wrenInsertInList (e : EngineState) (list_slot index element_slot : Int) :
    Option EngineState :=
  match slotRead e list_slot, slotRead e element_slot with
  | some (WrenValue.wList elems), some value =>
    if 0 ≤ index ∧ index.toNat ≤ elems.length then
      slotWrite e list_slot (WrenValue.wList (elems.insertIdx index.toNat value))
    else none
  | _, _ => none

/-- Rust `VM::get_list_element`: `ensure_slots(element_slot + 1)`, then
`check_index`, then forward the absolute index to `wrenGetListElement`. -/
def get_list_element (v : VMState) (list_slot index element_slot : Int) :
    List EngineCall × Except Err VMState :=
  let (v1, c1) := ensure_slots v (element_slot + 1)
  match check_index v1 list_slot index with
  | Except.error e => (c1, Except.error e)
  | Except.ok idx =>
    match wrenGetListElement v1.engine list_slot idx element_slot with
    | some e2 =>
      (c1 ++ [EngineCall.getListElement list_slot idx element_slot],
       Except.ok { v1 with engine := e2 })
    | none =>
      (c1 ++ [EngineCall.getListElement list_slot idx element_slot],
       Except.error Err.engineUB)

/-- Rust `VM::insert_in_list`: asserts `element_slot < get_slot_count()`, then
`check_index`, then forwards the absolute index to `wrenInsertInList`. -/
def insert_in_list (v : VMState) (list_slot index element_slot : Int) :
    List EngineCall × Except Err VMState :=
  if element_slot < get_slot_count v then
    match check_index v list_slot index with
    | Except.error e => ([], Except.error e)
    | Except.ok idx =>
      match wrenInsertInList v.engine list_slot idx element_slot with
      | some e2 =>
        ([EngineCall.insertInList list_slot idx element_slot],
         Except.ok { v with engine := e2 })
      | none =>
        ([EngineCall.insertInList list_slot idx element_slot],
         Except.error Err.engineUB)
  else ([], Except.error (Err.assertFail s!"No element in slot {element_slot}"))

/-- Rust `VM::interpret`: `CString::new(source).unwrap()` (panics on an
interior NUL) then `wrenInterpret`.  The script outcome is the engine's
(`eng` is the engine's interpret behavior, a parameter of the model);
slot side effects of script execution are beyond this model. -/
def interpret (eng : List Nat → InterpretResult) (v : VMState) (source : List Nat) :
    List EngineCall × Except Err InterpretResult :=
  if hasNul source then
    ([], Except.error (Err.assertFail "nul byte found in provided data"))
  else
    ([EngineCall.interpretSource source], Except.ok (eng source))

/-- Rust `VM::interpret_in_module`: `CString::new` for the module name, then
for the source (each panics on an interior NUL), then
`wrenInterpretInModule` (its outcome `engm` is the engine's). -/
def interpret_in_module (engm : List Nat → List Nat → InterpretResult)
    (v : VMState) (module source : List Nat) :
    List EngineCall × Except Err InterpretResult :=
  if hasNul module then
    ([], Except.error (Err.assertFail "nul byte found in provided data"))
  else if hasNul source then
    ([], Except.error (Err.assertFail "nul byte found in provided data"))
  else
    ([EngineCall.interpretInModule module source], Except.ok (engm module source))

/-- Rust `VM::interpret_file`: `File::open(path)?` then
`read_to_string(&mut buffer)?` (the file system is modelled as a map
from path to byte content; a missing entry is an open failure, non-UTF-8
bytes are a read failure), then `Ok(self.interpret(&buffer))`. -/
def interpret_file (eng : List Nat → InterpretResult) (fs : String → Option (List Nat))
    (v : VMState) (path : String) :
    List EngineCall × Except Err (Except IoError InterpretResult) :=
  match fs path with
  | none => ([], Except.ok (Except.error IoError.notFound))
  | some buffer =>
    if isValidUtf8 buffer then
      let (c, r) := interpret eng v buffer
      (c, r.map (fun res => Except.ok res))
    else ([], Except.ok (Except.error IoError.invalidData))

/-- Rust `VM::make_call_handle`: `CString::new(signature).unwrap()` (panics on
an interior NUL) then `wrenMakeCallHandle` (the engine's handle pointer
is a parameter), storing `vm = self.raw` in the `RawHandle`. -/
def make_call_handle (v : VMState) (signature : List Nat) (hraw : Nat) :
    List EngineCall × Except Err RawHandle :=
  if hasNul signature then
    ([], Except.error (Err.assertFail "nul byte found in provided data"))
  else
    ([EngineCall.makeCallHandle signature], Except.ok { raw := hraw, vm := v.raw })

/-- Rust `VM::get_variable`: `ensure_slots(slot + 1)` first, then
`CString::new` for module and name (each panics on an interior NUL),
then `wrenGetVariable`, which writes an engine-defined value into the
slot (modelled as an opaque value; the engine leaves the slot
engine-defined when the lookup fails, which this layer does not check). -/
def get_variable (v : VMState) (module name : List Nat) (slot : Int) :
    List EngineCall × Except Err VMState :=
  let (v1, c1) := ensure_slots v (slot + 1)
  if hasNul module then
    (c1, Except.error (Err.assertFail "nul byte found in provided data"))
  else if hasNul name then
    (c1, Except.error (Err.assertFail "nul byte found in provided data"))
  else
    match slotWrite v1.engine slot WrenValue.wOpaque with
    | some e2 =>
      (c1 ++ [EngineCall.getVariable module name slot], Except.ok { v1 with engine := e2 })
    | none =>
      (c1 ++ [EngineCall.getVariable module name slot], Except.error Err.engineUB)

/-- Whether a wrapper result is a panic raised by this layer. -/
def isLayerPanic {α : Type} : Except Err α → Bool
  | Except.error (Err.assertFail _) => true
  | _ => false

theorem slotWrite_wrenEnsureSlots (e : EngineState) (k : Int) (w : WrenValue) (h : 0 ≤ k) :
    ∃ e2, slotWrite (wrenEnsureSlots e (k + 1)) k w = some e2 ∧
      slotRead e2 k = some w ∧
      e2.slots.length = max e.slots.length (k.toNat + 1) := by
  have hk1 : (k + 1).toNat = k.toNat + 1 := by omega
  have hlen : (wrenEnsureSlots e (k + 1)).slots.length = max e.slots.length (k.toNat + 1) := by
    rw [wrenEnsureSlots_length, hk1]
  have hlt : k.toNat < (wrenEnsureSlots e (k + 1)).slots.length := by omega
  refine ⟨⟨(wrenEnsureSlots e (k + 1)).slots.set k.toNat w⟩, ?_, ?_, ?_⟩
  · unfold slotWrite
    rw [if_pos ⟨h, hlt⟩]
  · unfold slotRead
    rw [if_pos h]
    exact List.getElem?_set_eq_of_lt w hlt
  · simpa using hlen

theorem rcCloneN_eq (s n : Nat) : rcCloneN s n = s + n := by
  induction n generalizing s with
  | zero => rfl
  | succ m ih =>
    show rcCloneN (rcClone s) m = s + (m + 1)
    rw [ih]
    unfold rcClone
    omega

theorem rcDropN_succ (s n : Nat) (h : RawHandle) :
    rcDropN s (n + 1) h =
      ((rcDropN (rcDropOne s h).1 n h).1,
       (rcDropOne s h).2 ++ (rcDropN (rcDropOne s h).1 n h).2) := rfl

theorem rcDropN_all (n : Nat) (h : RawHandle) :
    rcDropN (n + 1) (n + 1) h = (0, rawHandleDrop h) := by
  induction n with
  | zero => rfl
  | succ m ih =>
    have h1 : rcDropOne (m + 2) h = (m + 1, []) := by
      unfold rcDropOne
      rw [if_neg (by omega)]
      rfl
    rw [rcDropN_succ, h1]
    simp [ih]

theorem rcDropAll_release (s : Nat) (h : RawHandle) (hs : 1 ≤ s) :
    rcDropAll s h = (0, [EngineCall.releaseHandle h.vm h.raw]) := by
  obtain ⟨n, rfl⟩ : ∃ n, s = n + 1 := ⟨s - 1, by omega⟩
  unfold rcDropAll
  rw [rcDropN_all]
  rfl

/-- C2: dropping a `VM` built by `VM::new` makes exactly one `wrenFreeVM`
call against its instance pointer; dropping a `VM` built by
`VM::from_ptr` makes no engine call at all. -/
theorem c2_vm_drop_ownership :
    ∀ (p : Nat) (e e' : EngineState),
      vmDropCalls (vmNew p e) = [EngineCall.freeVM p] ∧
      vmDropCalls (vmFromPtr p e') = [] := by
  intro p e e'
  exact ⟨rfl, rfl⟩

/-- C1: a handle produced by `make_call_handle` or `get_slot_handle`
stores the creating VM's instance pointer; cloning it `N` times and
dropping all `N + 1` references yields exactly one
`wrenReleaseHandle` call, made against that stored pointer. -/
theorem c1_handle_release_exactly_once
    (v : VMState) (signature : List Nat) (hraw : Nat) (slot : Int) (hraw2 : Nat) (N : Nat)
    (hsig : hasNul signature = false) (hslot : get_slot_count v > slot) :
    (∃ h, (make_call_handle v signature hraw).2 = Except.ok h ∧ h.vm = v.raw ∧
      rcDropAll (rcCloneN 1 N) h = (0, [EngineCall.releaseHandle v.raw hraw])) ∧
    (∃ h, get_slot_handle v slot hraw2 = Except.ok h ∧ h.vm = v.raw ∧
      rcDropAll (rcCloneN 1 N) h = (0, [EngineCall.releaseHandle v.raw hraw2])) := by
  have hstrong : 1 ≤ rcCloneN 1 N := by rw [rcCloneN_eq]; omega
  constructor
  · refine ⟨{ raw := hraw, vm := v.raw }, ?_, rfl, ?_⟩
    · unfold make_call_handle
      rw [hsig]
      rfl
    · exact rcDropAll_release _ _ hstrong
  · refine ⟨{ raw := hraw2, vm := v.raw }, ?_, rfl, ?_⟩
    · unfold get_slot_handle
      rw [if_pos hslot]
    · exact rcDropAll_release _ _ hstrong

/-- Witness for C1 at a concrete VM, signature, and clone count. -/
theorem c1_handle_release_exactly_once_witness :
    hasNul [99] = false ∧
    get_slot_count (vmNew 7 ⟨[WrenValue.wNull]⟩) > 0 ∧
    ((∃ h, (make_call_handle (vmNew 7 ⟨[WrenValue.wNull]⟩) [99] 5).2 = Except.ok h ∧
        h.vm = (vmNew 7 ⟨[WrenValue.wNull]⟩).raw ∧
        rcDropAll (rcCloneN 1 3) h = (0, [EngineCall.releaseHandle 7 5])) ∧
     (∃ h, get_slot_handle (vmNew 7 ⟨[WrenValue.wNull]⟩) 0 8 = Except.ok h ∧
        h.vm = (vmNew 7 ⟨[WrenValue.wNull]⟩).raw ∧
        rcDropAll (rcCloneN 1 3) h = (0, [EngineCall.releaseHandle 7 8]))) :=
  ⟨by decide, by decide,
   c1_handle_release_exactly_once (vmNew 7 ⟨[WrenValue.wNull]⟩) [99] 5 0 8 3
     (by decide) (by decide)⟩

/-- Refutation for C9 as stated: `set_slot_string` on a NUL-containing
string does panic, but only after an engine call (`wrenEnsureSlots`) has
already been made, so the claim "panic before any engine call is made"
fails at this concrete input. -/
theorem c9_counterexample :
    hasNul [0] = true ∧
    isLayerPanic (set_slot_string (vmNew 1 ⟨[]⟩) 0 [0]).2 = true ∧
    (set_slot_string (vmNew 1 ⟨[]⟩) 0 [0]).1 = [EngineCall.ensureSlots 1] ∧
    (set_slot_string (vmNew 1 ⟨[]⟩) 0 [0]).1 ≠ [] := by
  refine ⟨rfl, rfl, rfl, ?_⟩
  decide

/-- C9 (amended): every one of the five operations panics on an interior
NUL byte and never passes the string to the engine; `interpret`,
`interpret_in_module`, and `make_call_handle` panic before any engine
call, whereas `set_slot_string` and `get_variable` have already made
exactly one engine call — `wrenEnsureSlots(slot + 1)` — before the
panic. -/
theorem c9_nul_panics (v : VMState) (slot : Int) :
    (∀ source, hasNul source = true → ∀ eng,
      interpret eng v source =
        ([], Except.error (Err.assertFail "nul byte found in provided data"))) ∧
    (∀ module source, hasNul module = true ∨ hasNul source = true → ∀ engm,
      interpret_in_module engm v module source =
        ([], Except.error (Err.assertFail "nul byte found in provided data"))) ∧
    (∀ signature hraw, hasNul signature = true →
      make_call_handle v signature hraw =
        ([], Except.error (Err.assertFail "nul byte found in provided data"))) ∧
    (∀ s, hasNul s = true →
      set_slot_string v slot s =
        ([EngineCall.ensureSlots (slot + 1)],
         Except.error (Err.assertFail "nul byte found in provided data"))) ∧
    (∀ module name, hasNul module = true ∨ hasNul name = true →
      get_variable v module name slot =
        ([EngineCall.ensureSlots (slot + 1)],
         Except.error (Err.assertFail "nul byte found in provided data"))) := by
  refine ⟨?_, ?_, ?_, ?_, ?_⟩
  · intro source hs eng
    unfold interpret
    rw [hs]
    rfl
  · intro module source hms engm
    unfold interpret_in_module
    rcases hms with hm | hs
    · rw [hm]
      rfl
    · by_cases hm : hasNul module = true
      · rw [hm]
        rfl
      · rw [Bool.not_eq_true] at hm
        rw [hm, hs]
        rfl
  · intro signature hraw hs
    unfold make_call_handle
    rw [hs]
    rfl
  · intro s hs
    unfold set_slot_string ensure_slots
    rw [hs]
    rfl
  · intro module name hmn
    unfold get_variable ensure_slots
    rcases hmn with hm | hn
    · rw [hm]
      rfl
    · by_cases hm : hasNul module = true
      · rw [hm]
        rfl
      · rw [Bool.not_eq_true] at hm
        rw [hm, hn]
        rfl

/-- Witness for the amended C9 at concrete NUL-containing inputs. -/
theorem c9_nul_panics_witness :
    hasNul [0] = true ∧
    interpret (fun _ => InterpretResult.Success) (vmNew 1 ⟨[]⟩) [0] =
      ([], Except.error (Err.assertFail "nul byte found in provided data")) ∧
    set_slot_string (vmNew 1 ⟨[]⟩) 0 [0] =
      ([EngineCall.ensureSlots 1],
       Except.error (Err.assertFail "nul byte found in provided data")) :=
  ⟨by decide,
   (c9_nul_panics (vmNew 1 ⟨[]⟩) 0).1 [0] (by decide) _,
   (c9_nul_panics (vmNew 1 ⟨[]⟩) 0).2.2.2.1 [0] (by decide)⟩

/-- C8: `interpret_file` on an unreadable path (missing file, or bytes
that are not UTF-8) returns the distinct I/O-error outcome with no
engine call at all (hence no error-hook invocation); on a readable path
it makes the same engine call and returns the same outcome as
`interpret` on the file's full text. -/
theorem c8_interpret_file (eng : List Nat → InterpretResult)
    (fs : String → Option (List Nat)) (v : VMState) (path : String) :
    (fs path = none →
      interpret_file eng fs v path = ([], Except.ok (Except.error IoError.notFound))) ∧
    (∀ buffer, fs path = some buffer → isValidUtf8 buffer = false →
      interpret_file eng fs v path = ([], Except.ok (Except.error IoError.invalidData))) ∧
    (∀ buffer, fs path = some buffer → isValidUtf8 buffer = true →
      interpret_file eng fs v path =
        ((interpret eng v buffer).1,
         ((interpret eng v buffer).2).map (fun res => Except.ok res))) := by
  refine ⟨?_, ?_, ?_⟩
  · intro hnone
    unfold interpret_file
    rw [hnone]
  · intro buffer hsome hbad
    unfold interpret_file
    rw [hsome]
    simp only [hbad]
    rfl
  · intro buffer hsome hok
    unfold interpret_file
    rw [hsome]
    simp only [hok]
    rfl

/-- Witness for C8: a one-file file system, evaluated on the readable
path and on a missing path. -/
theorem c8_interpret_file_witness :
    ((fun p => if p = "main.wren" then some [104, 105] else none) "main.wren" =
        some [104, 105]) ∧
    isValidUtf8 [104, 105] = true ∧
    ((fun p => if p = "main.wren" then some [104, 105] else none) "missing.wren" = none) ∧
    interpret_file (fun _ => InterpretResult.Success)
        (fun p => if p = "main.wren" then some [104, 105] else none)
        (vmNew 1 ⟨[]⟩) "main.wren" =
      ((interpret (fun _ => InterpretResult.Success) (vmNew 1 ⟨[]⟩) [104, 105]).1,
       ((interpret (fun _ => InterpretResult.Success) (vmNew 1 ⟨[]⟩) [104, 105]).2).map
         (fun res => Except.ok res)) ∧
    interpret_file (fun _ => InterpretResult.Success)
        (fun p => if p = "main.wren" then some [104, 105] else none)
        (vmNew 1 ⟨[]⟩) "missing.wren" =
      ([], Except.ok (Except.error IoError.notFound)) :=
  ⟨by decide, by decide, by decide,
   (c8_interpret_file (fun _ => InterpretResult.Success)
      (fun p => if p = "main.wren" then some [104, 105] else none)
      (vmNew 1 ⟨[]⟩) "main.wren").2.2 [104, 105] (by decide) (by decide),
   (c8_interpret_file (fun _ => InterpretResult.Success)
      (fun p => if p = "main.wren" then some [104, 105] else none)
      (vmNew 1 ⟨[]⟩) "missing.wren").1 (by decide)⟩

theorem get_slot_type_of_read (v : VMState) (slot : Int) (value : WrenValue)
    (h : slotRead v.engine slot = some value) :
    get_slot_type v slot = Except.ok (typeOf value) := by
  obtain ⟨h0, hlt, _⟩ := slotRead_some _ _ _ h
  have hcount : get_slot_count v > slot := by
    unfold get_slot_count
    omega
  unfold get_slot_type
  rw [if_pos hcount, h]

/-- C7: on any allocated slot, `get_list_count` never fails, and it
returns 0 whenever the slot does not hold a list. -/
theorem c7_get_list_count_non_list (v : VMState) (slot : Int) (value : WrenValue)
    (h : slotRead v.engine slot = some value) :
    (∃ c, get_list_count v slot = Except.ok c) ∧
    (typeOf value ≠ Ty.tList → get_list_count v slot = Except.ok 0) := by
  have htype := get_slot_type_of_read v slot value h
  constructor
  · unfold get_list_count
    rw [htype]
    by_cases ht : typeOf value = Ty.tList
    · cases value with
      | wList elems =>
        refine ⟨(elems.length : Int), ?_⟩
        rw [h]
        rfl
      | wBool b => simp [typeOf] at ht
      | wNum bits => simp [typeOf] at ht
      | wStr bytes => simp [typeOf] at ht
      | wNull => simp [typeOf] at ht
      | wForeign p => simp [typeOf] at ht
      | wOpaque => simp [typeOf] at ht
    · exact ⟨0, if_neg ht⟩
  · intro ht
    unfold get_list_count
    rw [htype]
    exact if_neg ht

/-- Witness for C7 at a slot holding a bool. -/
theorem c7_get_list_count_non_list_witness :
    slotRead (vmNew 1 ⟨[WrenValue.wBool true]⟩).engine 0 = some (WrenValue.wBool true) ∧
    ((∃ c, get_list_count (vmNew 1 ⟨[WrenValue.wBool true]⟩) 0 = Except.ok c) ∧
     (typeOf (WrenValue.wBool true) ≠ Ty.tList →
       get_list_count (vmNew 1 ⟨[WrenValue.wBool true]⟩) 0 = Except.ok 0)) :=
  ⟨rfl, c7_get_list_count_non_list (vmNew 1 ⟨[WrenValue.wBool true]⟩) 0
    (WrenValue.wBool true) rfl⟩

/-- C4: on any allocated slot whose runtime type does not match the type
a read expects, each of the five typed reads returns `None` — never a
panic, engine fault, or garbage value. -/
theorem c4_mismatched_reads_absent (v : VMState) (slot : Int) (value : WrenValue)
    (h : slotRead v.engine slot = some value) :
    (typeOf value ≠ Ty.tBool → get_slot_bool v slot = Except.ok none) ∧
    (typeOf value ≠ Ty.tString → get_slot_bytes v slot = Except.ok none) ∧
    (typeOf value ≠ Ty.tNum → get_slot_double v slot = Except.ok none) ∧
    (typeOf value ≠ Ty.tForeign → get_slot_foreign v slot = Except.ok none) ∧
    (typeOf value ≠ Ty.tString → get_slot_string v slot = Except.ok none) := by
  have htype := get_slot_type_of_read v slot value h
  refine ⟨?_, ?_, ?_, ?_, ?_⟩
  · intro ht
    unfold get_slot_bool
    rw [htype]
    exact if_neg ht
  · intro ht
    unfold get_slot_bytes
    rw [htype]
    exact if_neg ht
  · intro ht
    unfold get_slot_double
    rw [htype]
    exact if_neg ht
  · intro ht
    unfold get_slot_foreign
    rw [htype]
    exact if_neg ht
  · intro ht
    unfold get_slot_string
    rw [htype]
    exact if_neg ht

/-- Witness for C4: a slot holding a number read as each mismatching
type, plus a bool slot read as a number. -/
theorem c4_mismatched_reads_absent_witness :
    slotRead (vmNew 1 ⟨[WrenValue.wNum 2]⟩).engine 0 = some (WrenValue.wNum 2) ∧
    typeOf (WrenValue.wNum 2) ≠ Ty.tString ∧
    get_slot_string (vmNew 1 ⟨[WrenValue.wNum 2]⟩) 0 = Except.ok none ∧
    get_slot_bool (vmNew 1 ⟨[WrenValue.wNum 2]⟩) 0 = Except.ok none :=
  ⟨rfl, by decide,
   (c4_mismatched_reads_absent (vmNew 1 ⟨[WrenValue.wNum 2]⟩) 0 (WrenValue.wNum 2)
      rfl).2.2.2.2 (by decide),
   (c4_mismatched_reads_absent (vmNew 1 ⟨[WrenValue.wNum 2]⟩) 0 (WrenValue.wNum 2)
      rfl).1 (by decide)⟩

theorem cstrTruncate_eq_self (s : List Nat) (h : hasNul s = false) : cstrTruncate s = s := by
  unfold cstrTruncate
  unfold hasNul at h
  induction s with
  | nil => rfl
  | cons b bs ih =>
    rw [List.contains_cons, Bool.or_eq_false_iff] at h
    have hb : b ≠ 0 := by
      intro hb0
      rw [hb0] at h
      simp at h
    rw [List.takeWhile_cons, if_pos (by simpa using hb), ih h.2]

theorem set_state_core (v : VMState) (k : Int) (w : WrenValue) (h0 : 0 ≤ k) :
    ∃ e2, slotWrite (wrenEnsureSlots v.engine (k + 1)) k w = some e2 ∧
      slotRead e2 k = some w ∧ ((e2.slots.length : Int) > k) := by
  obtain ⟨e2, hw, hr, hlen⟩ := slotWrite_wrenEnsureSlots v.engine k w h0
  refine ⟨e2, hw, hr, ?_⟩
  have := le_max_right v.engine.slots.length (k.toNat + 1)
  omega

/-- C3: writing a bool, double, byte string, or (NUL-free, UTF-8)
string to any slot `k` and immediately reading slot `k` back with the
type-matching getter returns exactly the written value. -/
theorem c3_slot_roundtrip (v : VMState) (k : Int) (h0 : 0 ≤ k) :
    (∀ b : Bool, ∃ v', (set_slot_bool v k b).2 = Except.ok v' ∧
      get_slot_bool v' k = Except.ok (some b)) ∧
    (∀ bits : Nat, ∃ v', (set_slot_double v k bits).2 = Except.ok v' ∧
      get_slot_double v' k = Except.ok (some bits)) ∧
    (∀ bytes : List Nat, ∃ v', (set_slot_bytes v k bytes).2 = Except.ok v' ∧
      get_slot_bytes v' k = Except.ok (some bytes)) ∧
    (∀ s : List Nat, hasNul s = false → isValidUtf8 s = true →
      ∃ v', (set_slot_string v k s).2 = Except.ok v' ∧
        get_slot_string v' k = Except.ok (some s)) := by
  refine ⟨?_, ?_, ?_, ?_⟩
  · intro b
    obtain ⟨e2, hw, hr, _⟩ := set_state_core v k (WrenValue.wBool b) h0
    have hr' : slotRead ({ v with engine := e2 } : VMState).engine k =
        some (WrenValue.wBool b) := hr
    have htype := get_slot_type_of_read { v with engine := e2 } k _ hr'
    refine ⟨{ v with engine := e2 }, ?_, ?_⟩
    · unfold set_slot_bool ensure_slots
      dsimp only
      rw [hw]
    · unfold get_slot_bool
      rw [htype, hr']
      cases b <;> rfl
  · intro bits
    obtain ⟨e2, hw, hr, _⟩ := set_state_core v k (WrenValue.wNum bits) h0
    have hr' : slotRead ({ v with engine := e2 } : VMState).engine k =
        some (WrenValue.wNum bits) := hr
    have htype := get_slot_type_of_read { v with engine := e2 } k _ hr'
    refine ⟨{ v with engine := e2 }, ?_, ?_⟩
    · unfold set_slot_double ensure_slots
      dsimp only
      rw [hw]
    · unfold get_slot_double
      rw [htype, hr']
      rfl
  · intro bytes
    obtain ⟨e2, hw, hr, _⟩ := set_state_core v k (WrenValue.wStr bytes) h0
    have hr' : slotRead ({ v with engine := e2 } : VMState).engine k =
        some (WrenValue.wStr bytes) := hr
    have htype := get_slot_type_of_read { v with engine := e2 } k _ hr'
    refine ⟨{ v with engine := e2 }, ?_, ?_⟩
    · unfold set_slot_bytes ensure_slots
      dsimp only
      rw [hw]
    · unfold get_slot_bytes
      rw [htype, hr']
      rfl
  · intro s hnul hutf
    obtain ⟨e2, hw, hr, _⟩ := set_state_core v k (WrenValue.wStr s) h0
    have hr' : slotRead ({ v with engine := e2 } : VMState).engine k =
        some (WrenValue.wStr s) := hr
    have htype := get_slot_type_of_read { v with engine := e2 } k _ hr'
    refine ⟨{ v with engine := e2 }, ?_, ?_⟩
    · unfold set_slot_string ensure_slots
      dsimp only
      rw [if_neg (by simp [hnul]), hw]
    · unfold get_slot_string
      rw [htype, hr']
      simp [cstrTruncate_eq_self s hnul, hutf]
      rfl

/-- Witness for C3 at slot 2 of an initially slot-free VM. -/
theorem c3_slot_roundtrip_witness :
    (0 : Int) ≤ 2 ∧
    (∃ v', (set_slot_bool (vmNew 1 ⟨[]⟩) 2 true).2 = Except.ok v' ∧
      get_slot_bool v' 2 = Except.ok (some true)) ∧
    (∃ v', (set_slot_string (vmNew 1 ⟨[]⟩) 2 [104, 105]).2 = Except.ok v' ∧
      get_slot_string v' 2 = Except.ok (some [104, 105])) :=
  ⟨by decide,
   (c3_slot_roundtrip (vmNew 1 ⟨[]⟩) 2 (by decide)).1 true,
   (c3_slot_roundtrip (vmNew 1 ⟨[]⟩) 2 (by decide)).2.2.2 [104, 105] (by decide) (by decide)⟩

/-- C5: every slot-writing operation on a non-negative slot `k` grows
the slot array first and succeeds regardless of the current slot count
(for `set_slot_string`, given the NUL-free string its `CString`
conversion requires); afterwards `get_slot_count` exceeds `k`. -/
theorem c5_writes_grow_slots (v : VMState) (k : Int) (h0 : 0 ≤ k) :
    (∀ b, ∃ v', (set_slot_bool v k b).2 = Except.ok v' ∧ get_slot_count v' > k) ∧
    (∀ bytes, ∃ v', (set_slot_bytes v k bytes).2 = Except.ok v' ∧ get_slot_count v' > k) ∧
    (∀ bits, ∃ v', (set_slot_double v k bits).2 = Except.ok v' ∧ get_slot_count v' > k) ∧
    (∀ class_slot size p, ∃ v',
      (set_slot_new_foreign v k class_slot size p).2 = Except.ok (p, v') ∧
      get_slot_count v' > k) ∧
    (∃ v', (set_slot_new_list v k).2 = Except.ok v' ∧ get_slot_count v' > k) ∧
    (∃ v', (set_slot_null v k).2 = Except.ok v' ∧ get_slot_count v' > k) ∧
    (∀ s, hasNul s = false →
      ∃ v', (set_slot_string v k s).2 = Except.ok v' ∧ get_slot_count v' > k) ∧
    (∀ handle, ∃ v', (set_slot_handle v k handle).2 = Except.ok v' ∧
      get_slot_count v' > k) := by
  refine ⟨?_, ?_, ?_, ?_, ?_, ?_, ?_, ?_⟩
  · intro b
    obtain ⟨e2, hw, _, hgt⟩ := set_state_core v k (WrenValue.wBool b) h0
    refine ⟨{ v with engine := e2 }, ?_, hgt⟩
    unfold set_slot_bool ensure_slots
    dsimp only
    rw [hw]
  · intro bytes
    obtain ⟨e2, hw, _, hgt⟩ := set_state_core v k (WrenValue.wStr bytes) h0
    refine ⟨{ v with engine := e2 }, ?_, hgt⟩
    unfold set_slot_bytes ensure_slots
    dsimp only
    rw [hw]
  · intro bits
    obtain ⟨e2, hw, _, hgt⟩ := set_state_core v k (WrenValue.wNum bits) h0
    refine ⟨{ v with engine := e2 }, ?_, hgt⟩
    unfold set_slot_double ensure_slots
    dsimp only
    rw [hw]
  · intro class_slot size p
    obtain ⟨e2, hw, _, hgt⟩ := set_state_core v k (WrenValue.wForeign p) h0
    refine ⟨{ v with engine := e2 }, ?_, hgt⟩
    unfold set_slot_new_foreign ensure_slots
    dsimp only
    rw [hw]
  · obtain ⟨e2, hw, _, hgt⟩ := set_state_core v k (WrenValue.wList []) h0
    refine ⟨{ v with engine := e2 }, ?_, hgt⟩
    unfold set_slot_new_list ensure_slots
    dsimp only
    rw [hw]
  · obtain ⟨e2, hw, _, hgt⟩ := set_state_core v k WrenValue.wNull h0
    refine ⟨{ v with engine := e2 }, ?_, hgt⟩
    unfold set_slot_null ensure_slots
    dsimp only
    rw [hw]
  · intro s hnul
    obtain ⟨e2, hw, _, hgt⟩ := set_state_core v k (WrenValue.wStr s) h0
    refine ⟨{ v with engine := e2 }, ?_, hgt⟩
    unfold set_slot_string ensure_slots
    dsimp only
    rw [if_neg (by simp [hnul]), hw]
  · intro handle
    obtain ⟨e2, hw, _, hgt⟩ := set_state_core v k WrenValue.wOpaque h0
    refine ⟨{ v with engine := e2 }, ?_, hgt⟩
    unfold set_slot_handle ensure_slots
    dsimp only
    rw [hw]

/-- Witness for C5: writing slot 3 of a VM whose slot count is 0. -/
theorem c5_writes_grow_slots_witness :
    (0 : Int) ≤ 3 ∧
    get_slot_count (vmNew 1 ⟨[]⟩) = 0 ∧
    (∃ v', (set_slot_null (vmNew 1 ⟨[]⟩) 3).2 = Except.ok v' ∧ get_slot_count v' > 3) ∧
    (∃ v', (set_slot_bool (vmNew 1 ⟨[]⟩) 3 false).2 = Except.ok v' ∧
      get_slot_count v' > 3) :=
  ⟨by decide, by decide,
   (c5_writes_grow_slots (vmNew 1 ⟨[]⟩) 3 (by decide)).2.2.2.2.2.1,
   (c5_writes_grow_slots (vmNew 1 ⟨[]⟩) 3 (by decide)).1 false⟩

theorem get_list_count_of_list (v : VMState) (ls : Int) (elems : List WrenValue)
    (hl : slotRead v.engine ls = some (WrenValue.wList elems)) :
    get_list_count v ls = Except.ok (elems.length : Int) := by
  have htype := get_slot_type_of_read v ls _ hl
  unfold get_list_count
  rw [htype, hl]
  rfl

theorem check_index_of_list (v : VMState) (ls : Int) (elems : List WrenValue)
    (hl : slotRead v.engine ls = some (WrenValue.wList elems)) (index : Int) :
    check_index v ls index =
      (if (if index < 0 then (elems.length : Int) + 1 + index else index) ≤
          (elems.length : Int)
       then Except.ok (if index < 0 then (elems.length : Int) + 1 + index else index)
       else Except.error (Err.assertFail "List index out of bounds")) := by
  have htype := get_slot_type_of_read v ls _ hl
  have hcnt := get_list_count_of_list v ls elems hl
  unfold check_index
  rw [htype, hcnt]
  rfl

theorem check_index_neg_one (v : VMState) (ls : Int) (elems : List WrenValue)
    (hl : slotRead v.engine ls = some (WrenValue.wList elems)) :
    check_index v ls (-1) = Except.ok (elems.length : Int) := by
  rw [check_index_of_list v ls elems hl (-1)]
  rw [if_pos (by norm_num : (-1 : Int) < 0)]
  have heq : (elems.length : Int) + 1 + (-1) = (elems.length : Int) := by ring
  rw [heq, if_pos (le_refl _)]

theorem check_index_at_count (v : VMState) (ls : Int) (elems : List WrenValue)
    (hl : slotRead v.engine ls = some (WrenValue.wList elems)) :
    check_index v ls (elems.length : Int) = Except.ok (elems.length : Int) := by
  rw [check_index_of_list v ls elems hl (elems.length : Int)]
  rw [if_neg (by omega : ¬ ((elems.length : Int) < 0))]
  rw [if_pos (le_refl _)]

theorem check_index_beyond (v : VMState) (ls : Int) (elems : List WrenValue)
    (hl : slotRead v.engine ls = some (WrenValue.wList elems))
    (i : Int) (hi : (elems.length : Int) + 1 ≤ i) :
    check_index v ls i = Except.error (Err.assertFail "List index out of bounds") := by
  rw [check_index_of_list v ls elems hl i]
  rw [if_neg (by omega : ¬ (i < 0))]
  rw [if_neg (by omega)]

/-- C6: on a slot holding a list of length `n`, `get_list_element` and
`insert_in_list` behave identically at index −1 and at index `n` (both
convert −1 to the absolute index `n`), and at any index ≥ `n + 1` both
fail the layer's bounds assertion. -/
theorem c6_relative_index_semantics (v : VMState) (ls : Int) (elems : List WrenValue)
    (es : Int) (hl : slotRead v.engine ls = some (WrenValue.wList elems)) :
    (get_list_element v ls (-1) es = get_list_element v ls (elems.length : Int) es) ∧
    (insert_in_list v ls (-1) es = insert_in_list v ls (elems.length : Int) es) ∧
    (∀ i : Int, (elems.length : Int) + 1 ≤ i →
      (get_list_element v ls i es).2 =
        Except.error (Err.assertFail "List index out of bounds") ∧
      (es < get_slot_count v →
        (insert_in_list v ls i es).2 =
          Except.error (Err.assertFail "List index out of bounds"))) := by
  refine ⟨?_, ?_, ?_⟩
  · unfold get_list_element ensure_slots
    dsimp only
    have hl1 : slotRead ({ v with engine := wrenEnsureSlots v.engine (es + 1) } :
        VMState).engine ls = some (WrenValue.wList elems) :=
      slotRead_wrenEnsureSlots v.engine (es + 1) ls _ hl
    rw [check_index_neg_one _ ls elems hl1, check_index_at_count _ ls elems hl1]
  · unfold insert_in_list
    by_cases hes : es < get_slot_count v
    · rw [if_pos hes, if_pos hes]
      rw [check_index_neg_one v ls elems hl, check_index_at_count v ls elems hl]
    · rw [if_neg hes, if_neg hes]
  · intro i hi
    constructor
    · unfold get_list_element ensure_slots
      dsimp only
      have hl1 : slotRead ({ v with engine := wrenEnsureSlots v.engine (es + 1) } :
          VMState).engine ls = some (WrenValue.wList elems) :=
        slotRead_wrenEnsureSlots v.engine (es + 1) ls _ hl
      rw [check_index_beyond _ ls elems hl1 i hi]
    · intro hes
      unfold insert_in_list
      rw [if_pos hes, check_index_beyond v ls elems hl i hi]

/-- Witness for C6 on a one-element list with the element slot in
bounds. -/
theorem c6_relative_index_semantics_witness :
    slotRead (vmNew 1 ⟨[WrenValue.wList [WrenValue.wNull], WrenValue.wBool true]⟩).engine 0 =
      some (WrenValue.wList [WrenValue.wNull]) ∧
    ((1 : Int) + 1 ≤ 2) ∧
    ((1 : Int) < get_slot_count
        (vmNew 1 ⟨[WrenValue.wList [WrenValue.wNull], WrenValue.wBool true]⟩)) ∧
    (get_list_element (vmNew 1 ⟨[WrenValue.wList [WrenValue.wNull], WrenValue.wBool true]⟩)
        0 (-1) 1 =
      get_list_element (vmNew 1 ⟨[WrenValue.wList [WrenValue.wNull], WrenValue.wBool true]⟩)
        0 1 1) ∧
    (insert_in_list (vmNew 1 ⟨[WrenValue.wList [WrenValue.wNull], WrenValue.wBool true]⟩)
        0 2 1).2 = Except.error (Err.assertFail "List index out of bounds") :=
  ⟨rfl, by decide, by decide,
   (c6_relative_index_semantics
      (vmNew 1 ⟨[WrenValue.wList [WrenValue.wNull], WrenValue.wBool true]⟩) 0
      [WrenValue.wNull] 1 rfl).1,
   ((c6_relative_index_semantics
      (vmNew 1 ⟨[WrenValue.wList [WrenValue.wNull], WrenValue.wBool true]⟩) 0
      [WrenValue.wNull] 1 rfl).2.2 2 (by decide)).2 (by decide)⟩

/-- C10: the layer's list bounds check is `index <= list_count`, not
strict: on a list of length `n` the absolute index `n` passes
`check_index`, and `get_list_element` at `n` is forwarded to the engine
(the `wrenGetListElement` call with index `n` appears in the trace);
only indices strictly greater than `n` are rejected. -/
theorem c10_bounds_check_is_le (v : VMState) (ls : Int) (elems : List WrenValue)
    (es : Int) (hl : slotRead v.engine ls = some (WrenValue.wList elems)) :
    check_index v ls (elems.length : Int) = Except.ok (elems.length : Int) ∧
    (get_list_element v ls (elems.length : Int) es).1 =
      [EngineCall.ensureSlots (es + 1),
       EngineCall.getListElement ls (elems.length : Int) es] ∧
    (∀ i : Int, (elems.length : Int) < i →
      check_index v ls i = Except.error (Err.assertFail "List index out of bounds")) := by
  refine ⟨check_index_at_count v ls elems hl, ?_, ?_⟩
  · unfold get_list_element ensure_slots
    dsimp only
    have hl1 : slotRead ({ v with engine := wrenEnsureSlots v.engine (es + 1) } :
        VMState).engine ls = some (WrenValue.wList elems) :=
      slotRead_wrenEnsureSlots v.engine (es + 1) ls _ hl
    rw [check_index_at_count _ ls elems hl1]
    dsimp only
    cases wrenGetListElement (wrenEnsureSlots v.engine (es + 1)) ls (elems.length : Int) es
      with
    | none => rfl
    | some e2 => rfl
  · intro i hi
    exact check_index_beyond v ls elems hl i (by omega)

/-- Witness for C10 on a one-element list: index 1 (one past the end)
passes the check and is forwarded; index 2 is rejected. -/
theorem c10_bounds_check_is_le_witness :
    slotRead (vmNew 1 ⟨[WrenValue.wList [WrenValue.wBool true]]⟩).engine 0 =
      some (WrenValue.wList [WrenValue.wBool true]) ∧
    check_index (vmNew 1 ⟨[WrenValue.wList [WrenValue.wBool true]]⟩) 0 1 =
      Except.ok 1 ∧
    (get_list_element (vmNew 1 ⟨[WrenValue.wList [WrenValue.wBool true]]⟩) 0 1 0).1 =
      [EngineCall.ensureSlots 1, EngineCall.getListElement 0 1 0] ∧
    check_index (vmNew 1 ⟨[WrenValue.wList [WrenValue.wBool true]]⟩) 0 2 =
      Except.error (Err.assertFail "List index out of bounds") :=
  ⟨rfl,
   (c10_bounds_check_is_le (vmNew 1 ⟨[WrenValue.wList [WrenValue.wBool true]]⟩) 0
      [WrenValue.wBool true] 0 rfl).1,
   (c10_bounds_check_is_le (vmNew 1 ⟨[WrenValue.wList [WrenValue.wBool true]]⟩) 0
      [WrenValue.wBool true] 0 rfl).2.1,
   (c10_bounds_check_is_le (vmNew 1 ⟨[WrenValue.wList [WrenValue.wBool true]]⟩) 0
      [WrenValue.wBool true] 0 rfl).2.2 2 (by decide)⟩

end Wren
